import Mathlib

/-!
Shallow embedding of src/main.py (the similarity-matching core of the
VectorMathing questionnaire app) and proofs about it.

Modelling conventions:
* Python ints are Lean `Int` (choice indices, distances); the chroma engine
  stores embeddings as float32, but the values occurring here are small
  integers (choice indices 0..4 and their squared differences), on which
  float32 arithmetic is exact, so `Int` is a faithful model.
* The chromadb collection is modelled as a `List Entry` of stored triples
  keyed by string id, exactly the shape the code writes via
  collection.upsert(ids=[str(user_id)], embeddings=..., metadatas=...,
  documents=...).
* chromadb ids are strings (the code itself writes str(user_id)); Python
  `==` between an int and a str is always False, which the model records
  in `pyIntEqStr`.
* Randomness (random.choice) is modelled by an explicit draw index.
* `DB.search` additionally returns the list of n_results values passed to
  the underlying collection.query, so that "no query was issued" is a
  provable statement (empty call log).
-/

namespace VectorMathing

/-- A participant record, as built by User.__init__ in src/main.py. -/
structure User where
  name : String
  choices : List Int
  comment : String
deriving DecidableEq, Repr

/-- The sentinel string the constructor substitutes for an empty comment
(Japanese for "no answer"). -/
def noAnswer : String := "無回答"

/-- Translation of User.__init__: name and choices are stored verbatim;
comment falls back to the sentinel when empty (Python falsiness of a string
is emptiness). -/
def User.make (name : String) (choices : List Int) (comment : String) : User :=
  { name := name, choices := choices,
    comment := if comment = "" then noAnswer else comment }

/-- Translation of User.distance: sum([(s - u) ** 2 for s, u in
zip(self.choices, user.choices)]). Python zip pairs up to the shorter list. -/
def User.distance (self other : User) : Int :=
  ((self.choices.zip other.choices).map (fun p => (p.1 - p.2) ^ 2)).sum

/-- One stored triple of the chroma collection: string id, embedding,
metadata name, document text — exactly what DB.upsert writes. -/
structure Entry where
  id : String
  embedding : List Int
  name : String
  document : String
deriving DecidableEq, Repr

/-- Translation of collection.upsert for a single entry: replace the entry
with the same id if one exists, otherwise append. -/
def Collection.upsert (c : List Entry) (e : Entry) : List Entry :=
  if c.any (fun x => x.id == e.id) then
    c.map (fun x => if x.id == e.id then e else x)
  else
    c ++ [e]

/-- Translation of DB.upsert: writes the entry keyed by str(user_id) with
the record's choices as embedding, name as metadata and comment as
document. -/
def DB.upsert (c : List Entry) (user_id : Nat) (user : User) : List Entry :=
  Collection.upsert c ⟨toString user_id, user.choices, user.name, user.comment⟩

/-- Translation of DB.get: point lookup by str(user_id); on a hit the code
reconstructs the record through the User constructor from the stored
embedding, metadata name and document. -/
def DB.get (c : List Entry) (user_id : Nat) : Option User :=
  match c.find? (fun x => x.id == toString user_id) with
  | none => none
  | some e => some (User.make e.name e.embedding e.document)

/-- Python equality between an int and a str: always False (values of
different, non-numeric-coercible types never compare equal under ==). -/
def pyIntEqStr (_ : Nat) (_ : String) : Bool := false

/-- Translation of the available-id computation in DB.generate_id:
set(range(1, 1000)).difference(self.collection.peek(limit=sys.maxsize)["ids"]).
peek returns every stored id as a string, while range(1, 1000) holds ints;
the set difference drops an int n only when n == some stored element, an
int-vs-str comparison embedded by pyIntEqStr. -/
def availableIds (c : List Entry) : List Nat :=
  (List.range' 1 999).filter (fun n => !((c.map (fun e => e.id)).any (fun s => pyIntEqStr n s)))

/-- Translation of DB.generate_id: random.choice over the available ids,
the random draw modelled as an index k into the pool; none models the
IndexError random.choice raises on an empty pool. -/
def generate_id (c : List Entry) (k : Nat) : Option Nat :=
  (availableIds c).get? k

/-- Squared L2 distance between two embeddings; the distance chroma reports
for its default "l2" space. -/
def sqL2 (a b : List Int) : Int :=
  ((a.zip b).map (fun p => (p.1 - p.2) ^ 2)).sum

/-- Model of the external chroma k-nearest-neighbour query as the spec
describes the collaborator: for a query embedding, the stored entries
ranked by ascending distance, truncated to the requested number of
results, each paired with its reported distance. -/
def Collection.query (c : List Entry) (emb : List Int) (nResults : Nat) :
    List (Entry × Int) :=
  ((c.map (fun e => (e, sqL2 e.embedding emb))).mergeSort
    (fun p q => decide (p.2 ≤ q.2))).take nResults

/-- Translation of DB.search: with fewer than 2 stored entries return
(None, -1.0) at once; otherwise query the collection with n_results=2 and
take the [0][1] components (second-ranked hit), rebuilding the record
through the User constructor. The second component of the result is the
log of n_results values passed to the underlying query (empty when no
query was issued). -/
def DB.search (c : List Entry) (user : User) : (Option User × Int) × List Nat :=
  if c.length < 2 then ((none, -1), [])
  else
    match (Collection.query c user.choices 2).get? 1 with
    | some (e, d) => ((some (User.make e.name e.embedding e.document), d), [2])
    | none => ((none, -1), [2])

/-! ## Helper lemmas -/

/-- The zipped sum of squares equals the indexwise sum over the common
prefix of the two lists. -/
lemma zip_sum_sq_min (a b : List Int) :
    ((a.zip b).map (fun p => (p.1 - p.2) ^ 2)).sum
      = ∑ i in Finset.range (min a.length b.length),
          (a.getD i 0 - b.getD i 0) ^ 2 := by
  induction a generalizing b with
  | nil => simp
  | cons x xs ih =>
    cases b with
    | nil => simp
    | cons y ys =>
      simp only [List.zip_cons_cons, List.map_cons, List.sum_cons,
        List.length_cons, Nat.succ_min_succ, Finset.sum_range_succ',
        List.getD_cons_succ, List.getD_cons_zero]
      rw [ih ys, add_comm]

/-- The zipped sum of squares is symmetric in its two lists. -/
lemma zip_sum_sq_comm (a b : List Int) :
    ((a.zip b).map (fun p => (p.1 - p.2) ^ 2)).sum
      = ((b.zip a).map (fun p => (p.1 - p.2) ^ 2)).sum := by
  induction a generalizing b with
  | nil => simp
  | cons x xs ih =>
    cases b with
    | nil => simp
    | cons y ys =>
      simp only [List.zip_cons_cons, List.map_cons, List.sum_cons, ih ys]
      ring_nf

/-- For equal-length lists the zipped sum of squares vanishes exactly when
the lists coincide. -/
lemma zip_sum_sq_eq_zero_iff (a b : List Int) (h : a.length = b.length) :
    ((a.zip b).map (fun p => (p.1 - p.2) ^ 2)).sum = 0 ↔ a = b := by
  induction a generalizing b with
  | nil =>
    cases b with
    | nil => simp
    | cons y ys => simp at h
  | cons x xs ih =>
    cases b with
    | nil => simp at h
    | cons y ys =>
      have h' : xs.length = ys.length := by simpa using h
      simp only [List.zip_cons_cons, List.map_cons, List.sum_cons]
      have hx : (0 : Int) ≤ (x - y) ^ 2 := sq_nonneg _
      have hs : (0 : Int) ≤ ((xs.zip ys).map (fun p => (p.1 - p.2) ^ 2)).sum := by
        apply List.sum_nonneg
        intro z hz
        obtain ⟨p, _, rfl⟩ := List.mem_map.mp hz
        exact sq_nonneg _
      rw [add_eq_zero_iff_of_nonneg hx hs, ih ys h']
      constructor
      · rintro ⟨h1, h2⟩
        have : x - y = 0 := by
          have := sq_eq_zero_iff.mp h1
          simpa using this
        have hxy : x = y := by omega
        simp [hxy, h2]
      · intro h1
        have hxy : x = y := by injection h1
        have htl : xs = ys := by injection h1
        simp [hxy, htl]

/-- The available-id pool computed by generate_id is always the whole
domain 1..999: chroma ids are strings, so the int-vs-str set difference
removes nothing, whatever is stored. -/
lemma availableIds_eq (c : List Entry) : availableIds c = List.range' 1 999 := by
  unfold availableIds
  have hany : ∀ (l : List String) (n : Nat),
      l.any (fun s => pyIntEqStr n s) = false := by
    intro l n
    induction l with
    | nil => rfl
    | cons s t ih => simp [pyIntEqStr, ih]
  simp [hany]

/-- generate_id draws from the full domain 1..999 regardless of the
collection contents. -/
lemma generate_id_eq (c : List Entry) (k : Nat) :
    generate_id c k = (List.range' 1 999).get? k := by
  rw [generate_id, availableIds_eq]

/-- Upserting an entry whose id differs from the head commutes with the
head. -/
lemma upsert_cons_ne (x : Entry) (xs : List Entry) (e : Entry)
    (h : x.id ≠ e.id) :
    Collection.upsert (x :: xs) e = x :: Collection.upsert xs e := by
  unfold Collection.upsert
  by_cases ha : xs.any (fun y => y.id == e.id)
  · simp [List.any_cons, ha, h]
  · simp [List.any_cons, ha, h]

/-- After an upsert, looking up the upserted id finds exactly the new
entry. -/
lemma find_upsert (c : List Entry) (e : Entry) :
    (Collection.upsert c e).find? (fun x => x.id == e.id) = some e := by
  induction c with
  | nil => simp [Collection.upsert]
  | cons x xs ih =>
    by_cases h : x.id = e.id
    · simp [Collection.upsert, List.any_cons, h]
    · rw [upsert_cons_ne x xs e h, List.find?_cons_of_neg _ (by simp [h])]
      exact ih

/-- When the distance-ranked list starts with two elements, the first is no
farther than the second, the second is no farther than everything after it,
and the ranking is a permutation of the input. -/
lemma two_smallest (l : List (Entry × Int)) (p₀ p₁ : Entry × Int)
    (t : List (Entry × Int))
    (hms : l.mergeSort (fun p q => decide (p.2 ≤ q.2)) = p₀ :: p₁ :: t) :
    p₀.2 ≤ p₁.2 ∧ (∀ p ∈ t, p₁.2 ≤ p.2) ∧ l.Perm (p₀ :: p₁ :: t) := by
  have hsorted := @List.sorted_mergeSort (Entry × Int)
    (fun p q => decide (p.2 ≤ q.2))
    (fun a b c hab hbc => by
      simp only [decide_eq_true_eq] at *
      exact le_trans hab hbc)
    (fun a b => by
      simp only [Bool.or_eq_true, decide_eq_true_eq]
      exact le_total _ _)
    l
  have hperm := List.mergeSort_perm l (fun p q : Entry × Int => decide (p.2 ≤ q.2))
  rw [hms] at hsorted hperm
  rw [List.pairwise_cons] at hsorted
  obtain ⟨h0, hsorted1⟩ := hsorted
  rw [List.pairwise_cons] at hsorted1
  obtain ⟨h1, _⟩ := hsorted1
  refine ⟨?_, ?_, hperm.symm⟩
  · exact of_decide_eq_true (h0 p₁ (List.mem_cons_self _ _))
  · exact fun p hp => of_decide_eq_true (h1 p hp)

/-! ## Claim theorems -/

/-- C1 (code evaluation at the failing input): after upserting a record
under id 7 — stored by the code as the string id str(7) — the allocator can
still return 7: the set difference compares the ints 1..999 against string
ids and removes nothing, so 7 remains in the pool random.choice draws
from. This contradicts the claim that the allocator never returns an id
already present. -/
theorem generate_id_can_return_stored_id :
    generate_id (DB.upsert [] 7 (User.make "A" [0, 0, 0] "a")) 6 = some 7 := by
  rw [generate_id_eq]
  rfl

/-- C2 (code evaluation at the failing input): on vectors of lengths 1 and
2 the distance does not fail at all — zip silently truncates to the shared
prefix and the code returns 0, where the claim demands an explicit
DimensionMismatch failure. -/
theorem distance_mismatched_lengths_truncates :
    (User.make "A" [0] "x").distance (User.make "B" [0, 7] "x") = 0 := by
  rfl

/-- C4: with fewer than 2 stored entries, DB.search immediately returns the
absent result (None, -1.0) and issues no underlying query (empty query
log). -/
theorem search_small_store_absent (c : List Entry) (user : User)
    (h : c.length < 2) :
    DB.search c user = ((none, -1), []) := by
  unfold DB.search
  rw [if_pos h]

/-- Witness for C4 at the empty store. -/
theorem search_small_store_absent_witness :
    ([] : List Entry).length < 2 ∧
      DB.search [] (User.make "A" [0, 0, 0] "a") = ((none, -1), []) :=
  ⟨by decide, search_small_store_absent [] (User.make "A" [0, 0, 0] "a") (by decide)⟩

/-- C5 (code evaluation at the failing input): with all 999 ids of the
domain stored (as the strings str(1)..str(999)), generate_id does not fail
with PoolExhausted — it happily returns the in-use id 1, because the
int-vs-str set difference never shrinks the pool. (Nothing in the code
raises or handles a PoolExhausted condition.) -/
theorem generate_id_full_pool_returns_id :
    generate_id
      ((List.range' 1 999).map (fun n => ⟨toString n, [0], "u", "c"⟩)) 0
      = some 1 := by
  rw [generate_id_eq]
  rfl

/-- C6: for records with equal-length choice vectors, the distance is the
sum over all indices of the squared componentwise difference. -/
theorem distance_eq_sum_sq (u v : User)
    (h : u.choices.length = v.choices.length) :
    u.distance v = ∑ i in Finset.range u.choices.length,
      (u.choices.getD i 0 - v.choices.getD i 0) ^ 2 := by
  rw [User.distance, zip_sum_sq_min, h, min_self]

/-- Witness for C6 at the spec scenario A = [0,0,0], B = [4,4,4]; the
distance also evaluates to 48 there. -/
theorem distance_eq_sum_sq_witness :
    (User.make "A" [0, 0, 0] "a").choices.length
        = (User.make "B" [4, 4, 4] "b").choices.length ∧
      (User.make "A" [0, 0, 0] "a").distance (User.make "B" [4, 4, 4] "b")
        = ∑ i in Finset.range (User.make "A" [0, 0, 0] "a").choices.length,
            ((User.make "A" [0, 0, 0] "a").choices.getD i 0
              - (User.make "B" [4, 4, 4] "b").choices.getD i 0) ^ 2 ∧
      (User.make "A" [0, 0, 0] "a").distance (User.make "B" [4, 4, 4] "b") = 48 :=
  ⟨rfl, distance_eq_sum_sq _ _ rfl, by decide⟩

/-- C7: upsert then get with the same id returns a record whose name,
choices and comment are equal to what was written, for every store, id and
constructed record. -/
theorem upsert_get_roundtrip (c : List Entry) (user_id : Nat)
    (name : String) (choices : List Int) (comment : String) :
    DB.get (DB.upsert c user_id (User.make name choices comment)) user_id
      = some (User.make name choices comment) := by
  unfold DB.get DB.upsert
  rw [show (fun x : Entry => x.id == toString user_id)
        = (fun x : Entry =>
            x.id == (Entry.mk (toString user_id) (User.make name choices comment).choices
              (User.make name choices comment).name
              (User.make name choices comment).comment).id) from rfl,
    find_upsert]
  by_cases hc : comment = "" <;> simp [User.make, noAnswer, hc]

/-- C8 (counterexample): a record constructed with an empty name keeps the
empty name — it is not replaced by the sentinel, so the claim that the
stored name is always a non-empty display string is false. -/
theorem make_empty_name_kept :
    (User.make "" [0, 0, 0] "hi").name = "" := by
  rfl

/-- C8 (amended): the constructor stores the name verbatim; it is the
comment that falls back to the sentinel "no answer" string when empty, so
every constructed record has a non-empty comment (but possibly an empty
name). -/
theorem make_name_verbatim_comment_defaulted
    (name : String) (choices : List Int) (comment : String) :
    (User.make name choices comment).name = name ∧
      (User.make name choices comment).comment
        = (if comment = "" then noAnswer else comment) ∧
      (User.make name choices comment).comment ≠ "" := by
  refine ⟨rfl, rfl, ?_⟩
  by_cases hc : comment = "" <;> simp [User.make, noAnswer, hc]

/-- C9: for records with equal-length choice vectors, distance is symmetric
and vanishes exactly when the two vectors are identical. -/
theorem distance_symm_and_zero_iff (u v : User)
    (h : u.choices.length = v.choices.length) :
    u.distance v = v.distance u ∧
      (u.distance v = 0 ↔ u.choices = v.choices) := by
  constructor
  · exact zip_sum_sq_comm u.choices v.choices
  · exact zip_sum_sq_eq_zero_iff u.choices v.choices h

/-- Witness for C9 at two concrete 3-dimensional records. -/
theorem distance_symm_and_zero_iff_witness :
    (User.make "A" [0, 1, 2] "a").choices.length
        = (User.make "B" [2, 1, 0] "b").choices.length ∧
      ((User.make "A" [0, 1, 2] "a").distance (User.make "B" [2, 1, 0] "b")
          = (User.make "B" [2, 1, 0] "b").distance (User.make "A" [0, 1, 2] "a") ∧
        ((User.make "A" [0, 1, 2] "a").distance (User.make "B" [2, 1, 0] "b") = 0
          ↔ (User.make "A" [0, 1, 2] "a").choices
              = (User.make "B" [2, 1, 0] "b").choices)) :=
  ⟨rfl, distance_symm_and_zero_iff _ _ rfl⟩

/-- C10: distance is total on arbitrary pairs of integer vectors and equals
the indexwise sum of squared differences over the first
min(len(a), len(b)) components, ignoring the excess of the longer list. -/
theorem distance_min_pairing (u v : User) :
    u.distance v = ∑ i in Finset.range (min u.choices.length v.choices.length),
      (u.choices.getD i 0 - v.choices.getD i 0) ^ 2 :=
  zip_sum_sq_min u.choices v.choices

/-- C3: with at least 2 stored entries, DB.search issues the underlying
similarity query with exactly two requested results (query log = [2]) and
returns the second-ranked hit — the record rebuilt through the User
constructor from its stored fields, paired with its reported distance. The
ranking is genuine: the two returned pairs carry their true squared-L2
distances to the query embedding, the first is at least as close as the
second, and every entry of the store not among the two is at least as far
as the second. -/
theorem search_returns_second_closest (c : List Entry) (user : User)
    (h : 2 ≤ c.length) :
    ∃ e₀ d₀ e₁ d₁ rest,
      Collection.query c user.choices 2 = [(e₀, d₀), (e₁, d₁)] ∧
      DB.search c user
        = ((some (User.make e₁.name e₁.embedding e₁.document), d₁), [2]) ∧
      d₀ = sqL2 e₀.embedding user.choices ∧
      d₁ = sqL2 e₁.embedding user.choices ∧
      d₀ ≤ d₁ ∧
      (c.map (fun e => (e, sqL2 e.embedding user.choices))).Perm
        ((e₀, d₀) :: (e₁, d₁) :: rest) ∧
      ∀ p ∈ rest, d₁ ≤ p.2 := by
  have hlen : ((c.map (fun e => (e, sqL2 e.embedding user.choices))).mergeSort
      (fun p q => decide (p.2 ≤ q.2))).length = c.length := by
    simp
  cases hms : (c.map (fun e => (e, sqL2 e.embedding user.choices))).mergeSort
      (fun p q => decide (p.2 ≤ q.2)) with
  | nil =>
    rw [hms] at hlen
    simp at hlen
    omega
  | cons p₀ tl =>
    cases tl with
    | nil =>
      rw [hms] at hlen
      simp at hlen
      omega
    | cons p₁ t =>
      obtain ⟨e₀, d₀⟩ := p₀
      obtain ⟨e₁, d₁⟩ := p₁
      obtain ⟨hle01, hrest, hperm⟩ := two_smallest _ _ _ _ hms
      have hq : Collection.query c user.choices 2 = [(e₀, d₀), (e₁, d₁)] := by
        unfold Collection.query
        rw [hms]
        rfl
      have hmem0 : (e₀, d₀) ∈ c.map (fun e => (e, sqL2 e.embedding user.choices)) :=
        hperm.mem_iff.mpr (by simp)
      have hmem1 : (e₁, d₁) ∈ c.map (fun e => (e, sqL2 e.embedding user.choices)) :=
        hperm.mem_iff.mpr (by simp)
      obtain ⟨a₀, _, ha₀⟩ := List.mem_map.mp hmem0
      obtain ⟨a₁, _, ha₁⟩ := List.mem_map.mp hmem1
      refine ⟨e₀, d₀, e₁, d₁, t, hq, ?_, ?_, ?_, hle01, hperm, hrest⟩
      · unfold DB.search
        rw [if_neg (by omega : ¬c.length < 2), hq]
        rfl
      · obtain ⟨h1, h2⟩ := Prod.mk.injEq .. ▸ ha₀
        rw [← h1, ← h2]
      · obtain ⟨h1, h2⟩ := Prod.mk.injEq .. ▸ ha₁
        rw [← h1, ← h2]

/-- Witness for C3 at the spec scenario: a two-entry store holding
A = [0,0,0] and B = [4,4,4], queried from record A. -/
theorem search_returns_second_closest_witness :
    2 ≤ ([⟨"1", [0, 0, 0], "A", "a"⟩, ⟨"2", [4, 4, 4], "B", "b"⟩] : List Entry).length ∧
    ∃ e₀ d₀ e₁ d₁ rest,
      Collection.query [⟨"1", [0, 0, 0], "A", "a"⟩, ⟨"2", [4, 4, 4], "B", "b"⟩]
          (User.make "A" [0, 0, 0] "a").choices 2 = [(e₀, d₀), (e₁, d₁)] ∧
      DB.search [⟨"1", [0, 0, 0], "A", "a"⟩, ⟨"2", [4, 4, 4], "B", "b"⟩]
          (User.make "A" [0, 0, 0] "a")
        = ((some (User.make e₁.name e₁.embedding e₁.document), d₁), [2]) ∧
      d₀ = sqL2 e₀.embedding (User.make "A" [0, 0, 0] "a").choices ∧
      d₁ = sqL2 e₁.embedding (User.make "A" [0, 0, 0] "a").choices ∧
      d₀ ≤ d₁ ∧
      (([⟨"1", [0, 0, 0], "A", "a"⟩, ⟨"2", [4, 4, 4], "B", "b"⟩] : List Entry).map
          (fun e => (e, sqL2 e.embedding (User.make "A" [0, 0, 0] "a").choices))).Perm
        ((e₀, d₀) :: (e₁, d₁) :: rest) ∧
      ∀ p ∈ rest, d₁ ≤ p.2 :=
  ⟨by decide, search_returns_second_closest _ _ (by decide)⟩

end VectorMathing
